import Mathlib

/-!
Shallow embedding of the portfolio backend's contact-form pipeline:
the POST /api/contact handler and GET /api/contact/stats handler
(src/routes/contact.js, asyncWrapper version), the error-normalization
wrapper (utils/apiWrapper: asyncWrapper / handleError /
createValidationError), the Enquiry mongoose schema (db/models/Enquiry)
and the notification email step (utils/emailService.sendEnquiryEmail).

JavaScript strings are modelled as Lean `String`s operated on through
their character lists; string lengths count characters (the source
counts UTF-16 code units, which agrees on ASCII data).  Absent / null
JSON fields are `Option.none`; JavaScript truthiness of a string field
is `truthy` below (absent, null and the empty string are falsy).
-/

/-- JavaScript truthiness of an optional string field: `undefined`,
`null` and `""` are falsy, every other string is truthy. -/
def truthy : Option String → Bool
  | none => false
  | some s => !s.data.isEmpty

/-- Drop trailing whitespace, as the second half of `String.prototype.trim`. -/
def trimRight (l : List Char) : List Char :=
  (l.reverse.dropWhile Char.isWhitespace).reverse

/-- `String.prototype.trim`: drop leading and trailing whitespace. -/
def jsTrimList (l : List Char) : List Char :=
  trimRight (l.dropWhile Char.isWhitespace)

/-- `String.prototype.trim` on strings. -/
def jsTrim (s : String) : String :=
  String.mk (jsTrimList s.data)

/-- ASCII case folding of one character, as `String.prototype.toLowerCase`
acts on the ASCII range (the only range exercised by this pipeline). -/
def jsCharLower (c : Char) : Char :=
  match c with
  | 'A' => 'a' | 'B' => 'b' | 'C' => 'c' | 'D' => 'd' | 'E' => 'e'
  | 'F' => 'f' | 'G' => 'g' | 'H' => 'h' | 'I' => 'i' | 'J' => 'j'
  | 'K' => 'k' | 'L' => 'l' | 'M' => 'm' | 'N' => 'n' | 'O' => 'o'
  | 'P' => 'p' | 'Q' => 'q' | 'R' => 'r' | 'S' => 's' | 'T' => 't'
  | 'U' => 'u' | 'V' => 'v' | 'W' => 'w' | 'X' => 'x' | 'Y' => 'y'
  | 'Z' => 'z'
  | c => c

/-- `String.prototype.toLowerCase` on strings (ASCII model). -/
def jsToLower (s : String) : String :=
  String.mk (s.data.map jsCharLower)

/-- A character admissible in the email regex classes `[^\s@]`:
anything that is neither whitespace nor `@`. -/
def isEmailChar (c : Char) : Bool :=
  !c.isWhitespace && c != '@'

/-- Split a character list at the first occurrence of `sep`:
`some (before, after)` when `sep` occurs, `none` otherwise. -/
def splitAtChar (sep : Char) : List Char → Option (List Char × List Char)
  | [] => none
  | c :: rest =>
    if c = sep then some ([], rest)
    else
      match splitAtChar sep rest with
      | some (a, b) => some (c :: a, b)
      | none => none

/-- True when the list contains a `.` that is followed by at least one
further character. -/
def hasDotThenMore : List Char → Bool
  | [] => false
  | c :: rest => (c == '.' && !rest.isEmpty) || hasDotThenMore rest

/-- The handler's email test `/^[^\s@]+@[^\s@]+\.[^\s@]+$/`: a nonempty
run of non-space non-`@` characters, one `@`, then a domain of non-space
non-`@` characters containing an interior dot with material on both
sides. -/
def emailRegexTest (s : String) : Bool :=
  match splitAtChar '@' s.data with
  | none => false
  | some (localPart, domain) =>
    !localPart.isEmpty && localPart.all isEmailChar &&
    !domain.isEmpty && domain.all isEmailChar &&
    hasDotThenMore domain.tail

/-- A character admissible in the phone regex tail class
`[\d\s\-\(\)]`. -/
def isPhoneTailChar (c : Char) : Bool :=
  c.isDigit || c.isWhitespace || c == '-' || c == '(' || c == ')'

/-- Strip the optional leading plus of the phone regex. -/
def stripPlus : List Char → List Char
  | '+' :: rest => rest
  | cs => cs

/-- The mandatory part of the phone regex after the optional plus: one
nonzero digit, then at most 15 tail characters. -/
def phoneBody : List Char → Bool
  | [] => false
  | c :: rest =>
    (c.isDigit && c != '0') && decide (rest.length ≤ 15) && rest.all isPhoneTailChar

/-- The handler's phone test `/^[\+]?[1-9][\d\s\-\(\)]{0,15}$/`: an
optional leading `+`, a nonzero digit, then at most 15 digits, spaces,
dashes or parentheses. -/
def phoneRegexTest (s : String) : Bool :=
  phoneBody (stripPlus s.data)

/-- A JavaScript `Error` object as the pipeline throws and inspects it:
`name` (e.g. `ValidationError`, `CastError`), `message`, the MongoDB
`code` (11000 for duplicates), the mongoose-style `errors` map of field
name to message, and the `path` of a cast error. -/
structure JsError where
  name : String
  message : String
  code : Option Nat
  errors : List (String × String)
  path : Option String
deriving Repr, DecidableEq

/-- `createValidationError` from utils/apiWrapper: an `Error` with
`name = 'ValidationError'` and a one-field `errors` map. -/
def createValidationError (field msg : String) : JsError :=
  { name := "ValidationError", message := msg, code := none
    errors := [(field, msg)], path := none }

/-- The error the handler builds when both email and phone are absent:
a `ValidationError` naming both fields with the same message. -/
def eitherContactError : JsError :=
  { name := "ValidationError"
    message := "Either email or phone number must be provided"
    code := none
    errors := [("email", "Either email or phone number must be provided"),
               ("phone", "Either email or phone number must be provided")]
    path := none }

/-- A stored date value.  `new Date(submittedAt)` parses the supplied
string with the runtime date parser: success carries the parsed
timestamp (epoch milliseconds), failure is an Invalid Date, which the
schema type rejects on save; `new Date()` is the current time (modelled
as a tick count). -/
inductive DateVal where
  | parsed (t : Int)
  | invalid
  | now (t : Nat)
deriving Repr, DecidableEq

/-- The runtime date parser, an oracle for `Date.parse`: the pipeline
is proved for every parser, so results hold for the actual runtime
implementation. -/
abbrev DateParser := String → Option Int

/-- `new Date(s)` on a string: either a date carrying the parsed
timestamp, or an Invalid Date. -/
def mkDate (parseDate : DateParser) (s : String) : DateVal :=
  match parseDate s with
  | some t => DateVal.parsed t
  | none => DateVal.invalid

/-- The `enquiryData` object the handler passes to the `Enquiry`
constructor. -/
structure EnquiryData where
  name : String
  email : Option String
  phone : Option String
  requirement : Option String
  submittedAt : DateVal
  status : String
deriving Repr, DecidableEq

/-- An `Enquiry` document at rest in the store; `id` models the
generated `_id` as the insertion index. -/
structure StoredEnquiry where
  id : Nat
  name : String
  email : Option String
  phone : Option String
  requirement : Option String
  submittedAt : DateVal
  status : String
deriving Repr, DecidableEq

/-- The store: the MongoDB connection flag and the `Enquiry`
collection. -/
structure Store where
  connected : Bool
  docs : List StoredEnquiry
deriving Repr, DecidableEq

/-- The handler's `field?.trim() || null` normalization: an absent field
stays null, and a field that trims to the empty string becomes null,
otherwise the trimmed string is kept. -/
def normOpt : Option String → Option String
  | none => none
  | some s => if (jsTrim s).data.isEmpty then none else some (jsTrim s)

/-- The mongoose schema setters of db/models/Enquiry applied when a
document is constructed: `trim` on name, email, phone and requirement,
and `lowercase` on email. -/
def applySchemaSetters (d : EnquiryData) : EnquiryData :=
  { d with
    name := jsTrim d.name
    email := d.email.map (fun s => jsToLower (jsTrim s))
    phone := d.phone.map jsTrim
    requirement := d.requirement.map jsTrim }

/-- The `status` enum of the Enquiry schema. -/
def statusEnum : List String :=
  ["new", "contacted", "in_progress", "resolved", "closed"]

/-- The field-level validators and casts of the Enquiry schema,
surfaced on save: name required / minlength 1 / maxlength 50, email and
phone format when present and nonempty, requirement maxlength 500, the
Date cast of submittedAt (an Invalid Date fails it), status in the
enum. -/
def schemaFieldErrors (d : EnquiryData) : List (String × String) :=
  (if d.name.data.isEmpty then [("name", "Name is required")]
   else if decide (50 < d.name.data.length) then
     [("name", "Name cannot exceed 50 characters")]
   else []) ++
  (match d.email with
   | some e =>
     if !e.data.isEmpty && !emailRegexTest e then
       [("email", "Please provide a valid email address")]
     else []
   | none => []) ++
  (match d.phone with
   | some p =>
     if !p.data.isEmpty && !phoneRegexTest p then
       [("phone", "Please provide a valid phone number")]
     else []
   | none => []) ++
  (match d.requirement with
   | some r =>
     if decide (500 < r.data.length) then
       [("requirement", "Requirement description cannot exceed 500 characters")]
     else []
   | none => []) ++
  (if d.submittedAt = DateVal.invalid then
     [("submittedAt", "Cast to date failed")]
   else []) ++
  (if statusEnum.contains d.status then []
   else [("status", "status is not a valid enum value")])

/-- A document as it lands in the collection: the (setter-processed)
data plus the generated identifier. -/
def mkStored (d : EnquiryData) (idx : Nat) : StoredEnquiry :=
  { id := idx, name := d.name, email := d.email, phone := d.phone
    requirement := d.requirement, submittedAt := d.submittedAt
    status := d.status }

/-- `Enquiry.prototype.save`: apply the schema setters, run the schema
validators, then the `pre('save')` hook requiring at least one of email
or phone, and finally append the document to the collection with a
fresh id. -/
def saveEnquiry (d : EnquiryData) (st : Store) :
    Except JsError (StoredEnquiry × Store) :=
  let d := applySchemaSetters d
  let errs := schemaFieldErrors d
  if !errs.isEmpty then
    .error { name := "ValidationError", message := "Enquiry validation failed"
             code := none, errors := errs, path := none }
  else if !truthy d.email && !truthy d.phone then
    .error { name := "ValidationError"
             message := "Either email or phone number must be provided"
             code := none, errors := [], path := none }
  else
    let r : StoredEnquiry := mkStored d st.docs.length
    .ok (r, { st with docs := st.docs ++ [r] })

/-- The JSON bodies the contact endpoint sends, together with the HTTP
status: `success`, `message`, the optional `errors` map, the optional
development-only `error` string of the generic 500 branch, and the
`enquiryId` / `submittedAt` of the 201 branch. -/
structure ApiResponse where
  status : Nat
  success : Bool
  message : String
  errors : Option (List (String × String))
  error : Option String
  enquiryId : Option Nat
  submittedAt : Option DateVal
deriving Repr, DecidableEq

/-- An incoming POST /api/contact body. -/
structure Payload where
  name : Option String
  email : Option String
  phone : Option String
  requirement : Option String
  submittedAt : Option String
deriving Repr, DecidableEq

/-- The `enquiryData` object built by the handler from a payload that
passed validation. -/
def handlerDoc (p : Payload) (now : Nat) (parseDate : DateParser) : EnquiryData :=
  { name := jsTrim (p.name.getD "")
    email := normOpt p.email
    phone := normOpt p.phone
    requirement := normOpt p.requirement
    submittedAt :=
      if truthy p.submittedAt then mkDate parseDate (p.submittedAt.getD "")
      else DateVal.now now
    status := "new" }

/-- The 201 success body of the POST handler. -/
def successResponse (enquiryId : Nat) (submittedAt : DateVal) : ApiResponse :=
  { status := 201, success := true
    message := "Thank you for your message! We have received your enquiry and will get back to you soon."
    errors := none, error := none
    enquiryId := some enquiryId, submittedAt := some submittedAt }

/-- The wrapped POST /api/contact handler body (routes/contact.js,
asyncWrapper version): the validation checks in source order, the
connection check, and the save; a thrown error is the `.error` case. -/
def contactCore (p : Payload) (st : Store) (now : Nat) (parseDate : DateParser) :
    Except JsError (ApiResponse × Store) :=
  let name := p.name.getD ""
  if !truthy p.name || (jsTrim name).data.isEmpty then
    .error (createValidationError "name" "Name is required")
  else if !truthy p.email && !truthy p.phone then
    .error eitherContactError
  else if decide (50 < name.data.length) then
    .error (createValidationError "name" "Name cannot exceed 50 characters")
  else if truthy p.requirement && decide (500 < (p.requirement.getD "").data.length) then
    .error (createValidationError "requirement" "Requirement description cannot exceed 500 characters")
  else if truthy p.email && !emailRegexTest (p.email.getD "") then
    .error (createValidationError "email" "Please provide a valid email address")
  else if truthy p.phone && !phoneRegexTest (p.phone.getD "") then
    .error (createValidationError "phone" "Please provide a valid phone number")
  else if !st.connected then
    .error { name := "Error"
             message := "Database service temporarily unavailable. Please try again later."
             code := none, errors := [], path := none }
  else
    match saveEnquiry (handlerDoc p now parseDate) st with
    | .error e => .error e
    | .ok (saved, st2) => .ok (successResponse saved.id saved.submittedAt, st2)

/-- `handleError` from utils/apiWrapper: classify a caught error and
build the uniform JSON response.  The `env` argument is
`process.env.NODE_ENV`. -/
def handleError (env : String) (e : JsError) : ApiResponse :=
  if e.name = "ValidationError" then
    { status := 400, success := false, message := "Please check your form data"
      errors := some e.errors, error := none, enquiryId := none, submittedAt := none }
  else if e.code = some 11000 then
    { status := 400, success := false, message := "Duplicate entry detected"
      errors := some [("general", "This entry appears to be a duplicate")]
      error := none, enquiryId := none, submittedAt := none }
  else if e.name = "CastError" then
    { status := 400, success := false, message := "Invalid data format"
      errors := some [(e.path.getD "undefined", "Invalid format for this field")]
      error := none, enquiryId := none, submittedAt := none }
  else if e.name = "JsonWebTokenError" then
    { status := 401, success := false, message := "Invalid token"
      errors := none, error := none, enquiryId := none, submittedAt := none }
  else if e.name = "TooManyRequests" then
    { status := 429, success := false
      message := "Too many requests. Please try again later."
      errors := none, error := none, enquiryId := none, submittedAt := none }
  else
    { status := 500, success := false
      message := "There was an error processing your request. Please try again later."
      errors := none
      error := if env = "development" then some e.message else none
      enquiryId := none, submittedAt := none }

/-- Outcome of the notification email dispatch attempt
(utils/emailService.sendEnquiryEmail). -/
inductive EmailOutcome where
  | sent
  | failed (msg : String)
deriving Repr, DecidableEq

/-- The log entry the handler's try/catch around `sendEnquiryEmail`
writes: a success line, or the failure line of the swallowed error. -/
def emailStepLog : EmailOutcome → List String
  | .sent => ["Enquiry notification email sent successfully"]
  | .failed m => ["Failed to send enquiry notification email: " ++ m]

/-- The full POST /api/contact endpoint: `asyncWrapper(handler)`.  A
normal return carries the 201 response, the updated store and the email
step's log line; a thrown error is routed through `handleError` with the
store untouched, after the wrapper logs it. -/
def postContact (p : Payload) (st : Store) (now : Nat) (parseDate : DateParser)
    (env : String) (outcome : EmailOutcome) : ApiResponse × Store × List String :=
  match contactCore p st now parseDate with
  | .ok (resp, st2) => (resp, st2, emailStepLog outcome)
  | .error e => (handleError env e, st, ["API Error occurred: " ++ e.message])

/-- A row of the `recentEnquiries` projection of the stats endpoint. -/
structure RecentEntry where
  id : Nat
  name : String
  email : Option String
  phone : Option String
  submittedAt : DateVal
  status : String
deriving Repr, DecidableEq

/-- The GET /api/contact/stats JSON body with its HTTP status. -/
structure StatsResponse where
  status : Nat
  success : Bool
  message : Option String
  totalEnquiries : Option Nat
  newEnquiries : Option Nat
  contactedEnquiries : Option Nat
  recentEnquiries : Option (List RecentEntry)
deriving Repr, DecidableEq

/-- Order on stored dates used by `getRecentEnquiries`' sort: the
store compares the underlying timestamps; parsed timestamps and tick
counts live on one timeline, and an Invalid Date (never produced by the
pipeline, the save rejects it) sorts last by convention. -/
def dateLe (a b : DateVal) : Bool :=
  match a, b with
  | .now x, .now y => decide (x ≤ y)
  | .parsed s, .parsed t => decide (s ≤ t)
  | .parsed s, .now y => decide (s ≤ (y : Int))
  | .now x, .parsed t => decide ((x : Int) ≤ t)
  | .invalid, _ => true
  | _, .invalid => false

/-- Insert into a list kept in descending `submittedAt` order. -/
def insertByDateDesc (x : StoredEnquiry) :
    List StoredEnquiry → List StoredEnquiry
  | [] => [x]
  | y :: ys =>
    if dateLe y.submittedAt x.submittedAt then x :: y :: ys
    else y :: insertByDateDesc x ys

/-- Sort a collection in descending `submittedAt` order. -/
def sortByDateDesc : List StoredEnquiry → List StoredEnquiry
  | [] => []
  | x :: xs => insertByDateDesc x (sortByDateDesc xs)

/-- `Enquiry.getRecentEnquiries(limit)`: most recent first, at most
`limit` documents. -/
def getRecentEnquiries (docs : List StoredEnquiry) (limit : Nat) :
    List StoredEnquiry :=
  (sortByDateDesc docs).take limit

/-- `Enquiry.countDocuments`, with or without a status filter. -/
def countDocuments (docs : List StoredEnquiry) (statusFilter : Option String) : Nat :=
  match statusFilter with
  | none => docs.length
  | some s => (docs.filter (fun d => d.status = s)).length

/-- The projection of a stored document into a `recentEnquiries` row. -/
def toRecentEntry (d : StoredEnquiry) : RecentEntry :=
  { id := d.id, name := d.name, email := d.email, phone := d.phone
    submittedAt := d.submittedAt, status := d.status }

/-- The GET /api/contact/stats handler: 503 when the store is not
connected, otherwise the three counts and the five most recent
enquiries.  The handler performs no writes, so it returns the store it
was given. -/
def getStats (st : Store) : StatsResponse × Store :=
  if !st.connected then
    ({ status := 503, success := false, message := some "Database not available"
       totalEnquiries := none, newEnquiries := none
       contactedEnquiries := none, recentEnquiries := none }, st)
  else
    ({ status := 200, success := true, message := none
       totalEnquiries := some (countDocuments st.docs none)
       newEnquiries := some (countDocuments st.docs (some "new"))
       contactedEnquiries := some (countDocuments st.docs (some "contacted"))
       recentEnquiries := some ((getRecentEnquiries st.docs 5).map toRecentEntry) }, st)

/-- Retrieve a stored enquiry by its generated identifier. -/
def findEnquiry (st : Store) (id : Nat) : Option StoredEnquiry :=
  st.docs.find? (fun d => d.id == id)

/-- A store whose document identifiers are exactly the insertion
indices, as the generated-id model maintains them. -/
def wfStore (st : Store) : Bool :=
  st.docs.map (fun d => d.id) == List.range st.docs.length

/-- A payload that passes every check of the POST handler: name present
and non-blank and at most 50 characters, at least one of email and phone
present, requirement at most 500 characters when present, and email and
phone well-formed when present.  This is the conjunction of the
handler's validation guards. -/
def validPayload (p : Payload) : Bool :=
  (truthy p.name && !(jsTrim (p.name.getD "")).data.isEmpty) &&
  (truthy p.email || truthy p.phone) &&
  decide ((p.name.getD "").data.length ≤ 50) &&
  (!truthy p.requirement || decide ((p.requirement.getD "").data.length ≤ 500)) &&
  (!truthy p.email || emailRegexTest (p.email.getD "")) &&
  (!truthy p.phone || phoneRegexTest (p.phone.getD ""))

/-- The supplied submittedAt, when present and non-empty, parses as a
date under the runtime parser; an absent or empty one falls back to
`new Date()` and cannot fail the schema's Date cast. -/
def dateOk (parseDate : DateParser) (p : Payload) : Bool :=
  !truthy p.submittedAt || (parseDate (p.submittedAt.getD "")).isSome

/-- The guard conditions of `handleError` that lead to a classified
response; an error matching none of them falls to the generic 500
branch. -/
def isUnclassified (e : JsError) : Bool :=
  e.name != "ValidationError" && e.code != some 11000 &&
  e.name != "CastError" && e.name != "JsonWebTokenError" &&
  e.name != "TooManyRequests"

/-- Decidable equality of `Except` results, used to evaluate the
pipeline at concrete inputs. -/
instance instDecEqExcept {ε α : Type} [DecidableEq ε] [DecidableEq α] :
    DecidableEq (Except ε α)
  | .ok a, .ok b =>
    if h : a = b then .isTrue (by rw [h])
    else .isFalse (fun hc => h (by injection hc))
  | .ok _, .error _ => .isFalse (fun hc => Except.noConfusion hc)
  | .error _, .ok _ => .isFalse (fun hc => Except.noConfusion hc)
  | .error a, .error b =>
    if h : a = b then .isTrue (by rw [h])
    else .isFalse (fun hc => h (by injection hc))

/-- Truthiness of an absent field. -/
theorem truthy_none_eq : truthy none = false := rfl

/-- Truthiness of an empty-string field. -/
theorem truthy_some_empty : truthy (some "") = false := rfl

/-- Normalization of an empty-string field yields null. -/
theorem normOpt_some_empty : normOpt (some "") = none := rfl

/-- Inversion of a successful save: the stored document is the
setter-processed data under a fresh id, the collection grows by exactly
that document, and the saved document carries email or phone. -/
theorem saveEnquiry_ok_inv {d : EnquiryData} {st : Store} {r : StoredEnquiry}
    {st2 : Store} (h : saveEnquiry d st = Except.ok (r, st2)) :
    r = mkStored (applySchemaSetters d) st.docs.length ∧
    st2 = { st with docs := st.docs ++ [r] } ∧
    (truthy (applySchemaSetters d).email = true ∨
     truthy (applySchemaSetters d).phone = true) := by
  simp only [saveEnquiry] at h
  split at h
  · exact Except.noConfusion h
  split at h
  · exact Except.noConfusion h
  next hcontact =>
    injection h with h
    injection h with h1 h2
    refine ⟨h1.symm, ?_, ?_⟩
    · rw [← h2, h1]
    · by_cases he : truthy (applySchemaSetters d).email = true
      · exact Or.inl he
      · right
        by_cases hp : truthy (applySchemaSetters d).phone = true
        · exact hp
        · exact absurd (by simp [Bool.not_eq_true] at he hp; simp [he, hp]) hcontact

/-- Inversion of a handler run that returned normally: some document
was appended to the collection, it is the setter-processed handler
document, its status is `new`, and the response is the 201 success
body for it. -/
theorem contactCore_ok_inv {p : Payload} {st : Store} {now : Nat}
    {parseDate : DateParser} {r : ApiResponse} {st2 : Store}
    (h : contactCore p st now parseDate = Except.ok (r, st2)) :
    ∃ d : StoredEnquiry,
      d = mkStored (applySchemaSetters (handlerDoc p now parseDate)) st.docs.length ∧
      st2 = { st with docs := st.docs ++ [d] } ∧
      d.status = "new" ∧
      r = successResponse d.id d.submittedAt := by
  simp only [contactCore] at h
  split at h
  · exact Except.noConfusion h
  split at h
  · exact Except.noConfusion h
  split at h
  · exact Except.noConfusion h
  split at h
  · exact Except.noConfusion h
  split at h
  · exact Except.noConfusion h
  split at h
  · exact Except.noConfusion h
  split at h
  · exact Except.noConfusion h
  split at h
  · exact Except.noConfusion h
  next saved st3 hsave =>
    injection h with h
    injection h with h1 h2
    obtain ⟨hr, hst, _⟩ := saveEnquiry_ok_inv hsave
    refine ⟨saved, hr, ?_, ?_, h1.symm⟩
    · rw [← h2, hst]
    · rw [hr]; rfl

/-- The stats handler performs no writes: it returns the store it was
given. -/
theorem getStats_preserves_store (st : Store) : (getStats st).2 = st := by
  unfold getStats
  split <;> rfl

/-- C9: for every store state, two consecutive GET /api/contact/stats
requests with no intervening writes return identical totalEnquiries,
newEnquiries and contactedEnquiries counts. -/
theorem stats_idempotent (st : Store) :
    (getStats (getStats st).2).1.totalEnquiries = (getStats st).1.totalEnquiries ∧
    (getStats (getStats st).2).1.newEnquiries = (getStats st).1.newEnquiries ∧
    (getStats (getStats st).2).1.contactedEnquiries = (getStats st).1.contactedEnquiries := by
  rw [getStats_preserves_store]
  exact ⟨rfl, rfl, rfl⟩

/-- C8: for unclassified errors handled outside development, the
response does not depend on the internal error message: any two
unclassified errors produce identical 500 responses, and the `error`
field is omitted. -/
theorem handleError_production_no_leak (env : String) (e1 e2 : JsError)
    (h1 : isUnclassified e1 = true) (h2 : isUnclassified e2 = true)
    (henv : env ≠ "development") :
    handleError env e1 = handleError env e2 ∧
    (handleError env e1).status = 500 ∧
    (handleError env e1).error = none := by
  simp only [isUnclassified, Bool.and_eq_true, bne_iff_ne, ne_eq] at h1 h2
  obtain ⟨⟨⟨⟨hv1, hc1⟩, hca1⟩, hj1⟩, ht1⟩ := h1
  obtain ⟨⟨⟨⟨hv2, hc2⟩, hca2⟩, hj2⟩, ht2⟩ := h2
  refine ⟨?_, ?_, ?_⟩ <;>
    simp [handleError, hv1, hc1, hca1, hj1, ht1, hv2, hc2, hca2, hj2, ht2, henv]

/-- Witness for C8 at two concrete unclassified errors in production. -/
theorem handleError_production_no_leak_witness :
    handleError "production" ⟨"Error", "disk failure at /var/db", none, [], none⟩ =
      handleError "production" ⟨"Error", "password was hunter2", none, [], none⟩ ∧
    (handleError "production" ⟨"Error", "disk failure at /var/db", none, [], none⟩).status = 500 ∧
    (handleError "production" ⟨"Error", "disk failure at /var/db", none, [], none⟩).error = none :=
  handleError_production_no_leak "production" _ _ (by decide) (by decide) (by decide)

/-- C4 counterexample: a caught error named `JsonWebTokenError` is none
of a validation, duplicate-entry or malformed-input (cast) error, yet
the wrapper emits 401, not the 500 the claim requires for every other
error. -/
theorem handleError_other_cex :
    ("JsonWebTokenError" : String) ≠ "ValidationError" ∧
    (⟨"JsonWebTokenError", "jwt malformed", none, [], none⟩ : JsError).code ≠ some 11000 ∧
    ("JsonWebTokenError" : String) ≠ "CastError" ∧
    (handleError "production"
      ⟨"JsonWebTokenError", "jwt malformed", none, [], none⟩).status = 401 := by
  decide

/-- Every response built by the error wrapper carries `success:false`. -/
theorem handleError_success_false (env : String) (e : JsError) :
    (handleError env e).success = false := by
  unfold handleError
  repeat' split
  all_goals rfl

/-- C4 amended: the wrapper emits 400 for validation, duplicate-entry
(code 11000) and cast errors, 401 for JsonWebTokenError, 429 for
TooManyRequests, and 500 only for errors matching none of those
branches; every response has `success:false`. -/
theorem handleError_classification (env : String) (e : JsError) :
    (handleError env e).success = false ∧
    (e.name = "ValidationError" →
      (handleError env e).status = 400 ∧ (handleError env e).errors = some e.errors) ∧
    (e.name ≠ "ValidationError" → e.code = some 11000 →
      (handleError env e).status = 400) ∧
    (e.name ≠ "ValidationError" → e.code ≠ some 11000 → e.name = "CastError" →
      (handleError env e).status = 400) ∧
    (e.name ≠ "ValidationError" → e.code ≠ some 11000 → e.name = "JsonWebTokenError" →
      (handleError env e).status = 401) ∧
    (e.name ≠ "ValidationError" → e.code ≠ some 11000 → e.name = "TooManyRequests" →
      (handleError env e).status = 429) ∧
    (isUnclassified e = true → (handleError env e).status = 500) := by
  refine ⟨handleError_success_false env e, ?_, ?_, ?_, ?_, ?_, ?_⟩
  · intro hv
    simp [handleError, hv]
  · intro hv hc
    simp [handleError, hv, hc]
  · intro hv hc hca
    simp [handleError, hv, hc, hca]
  · intro hv hc hj
    simp [handleError, hv, hc, hj]
  · intro hv hc ht
    simp [handleError, hv, hc, ht]
  · intro h
    simp only [isUnclassified, Bool.and_eq_true, bne_iff_ne, ne_eq] at h
    obtain ⟨⟨⟨⟨hv, hc⟩, hca⟩, hj⟩, ht⟩ := h
    simp [handleError, hv, hc, hca, hj, ht]

/-- Witness for C4 amended: a validation error gets 400, a plain error
gets 500. -/
theorem handleError_classification_witness :
    (handleError "production"
      ⟨"ValidationError", "bad", none, [("name", "Name is required")], none⟩).status = 400 ∧
    (handleError "production" ⟨"Error", "boom", none, [], none⟩).status = 500 :=
  ⟨((handleError_classification "production" _).2.1 rfl).1,
   (handleError_classification "production" _).2.2.2.2.2.2 (by decide)⟩

/-- C1 counterexample: the empty payload has both email and phone
absent, but the response's errors map names only `name` — the name
check fires first — so the errors mapping does not name the email and
phone fields. -/
theorem contact_both_absent_cex :
    (postContact ⟨none, none, none, none, none⟩ ⟨true, []⟩ 0 (fun _ => some 0) "production"
        EmailOutcome.sent).1.status = 400 ∧
    (postContact ⟨none, none, none, none, none⟩ ⟨true, []⟩ 0 (fun _ => some 0) "production"
        EmailOutcome.sent).1.errors = some [("name", "Name is required")] ∧
    ((postContact ⟨none, none, none, none, none⟩ ⟨true, []⟩ 0 (fun _ => some 0) "production"
        EmailOutcome.sent).1.errors.getD []).lookup "email" = none := by
  decide

/-- C1 amended: for every payload whose name is present and non-blank
and in which both email and phone are absent (or empty), the handler
responds 400 with an errors map naming both the email and the phone
field, each with the message about providing either contact, and the
store is untouched. -/
theorem contact_both_absent (p : Payload) (st : Store) (now : Nat)
    (parseDate : DateParser) (env : String)
    (o : EmailOutcome) (hn : truthy p.name = true)
    (hnb : (jsTrim (p.name.getD "")).data.isEmpty = false)
    (he : truthy p.email = false) (hp : truthy p.phone = false) :
    (postContact p st now parseDate env o).1.status = 400 ∧
    (postContact p st now parseDate env o).1.errors =
      some [("email", "Either email or phone number must be provided"),
            ("phone", "Either email or phone number must be provided")] ∧
    (postContact p st now parseDate env o).2.1 = st := by
  have hcore : contactCore p st now parseDate = Except.error eitherContactError := by
    simp [contactCore, hn, hnb, he, hp, eitherContactError]
  refine ⟨?_, ?_, ?_⟩ <;> simp [postContact, hcore, handleError, eitherContactError]

/-- Witness for C1 amended at a concrete payload with a name and no
contact fields. -/
theorem contact_both_absent_witness :
    (postContact ⟨some "Bob", none, none, none, none⟩ ⟨true, []⟩ 0 (fun _ => some 0) "production"
        EmailOutcome.sent).1.status = 400 ∧
    (postContact ⟨some "Bob", none, none, none, none⟩ ⟨true, []⟩ 0 (fun _ => some 0) "production"
        EmailOutcome.sent).1.errors =
      some [("email", "Either email or phone number must be provided"),
            ("phone", "Either email or phone number must be provided")] ∧
    (postContact ⟨some "Bob", none, none, none, none⟩ ⟨true, []⟩ 0 (fun _ => some 0) "production"
        EmailOutcome.sent).2.1 = ⟨true, []⟩ :=
  contact_both_absent ⟨some "Bob", none, none, none, none⟩ ⟨true, []⟩ 0 (fun _ => some 0) "production"
    EmailOutcome.sent (by decide) (by decide) (by decide) (by decide)

/-- C7: every document a successful save accepts carries at least one
of email or phone, and every document the submission pipeline adds to
the collection has status `new` at creation. -/
theorem enquiry_store_invariant :
    (∀ (d : EnquiryData) (st : Store) (r : StoredEnquiry) (st2 : Store),
        saveEnquiry d st = Except.ok (r, st2) →
        truthy r.email = true ∨ truthy r.phone = true) ∧
    (∀ (p : Payload) (st : Store) (now : Nat) (parseDate : DateParser)
        (r : ApiResponse) (st2 : Store),
        contactCore p st now parseDate = Except.ok (r, st2) →
        ∀ doc ∈ st2.docs, doc ∈ st.docs ∨ doc.status = "new") := by
  constructor
  · intro d st r st2 h
    obtain ⟨hr, _, hor⟩ := saveEnquiry_ok_inv h
    rw [hr]
    exact hor
  · intro p st now parseDate r st2 h doc hdoc
    obtain ⟨d, _, hst2, hstatus, _⟩ := contactCore_ok_inv h
    rw [hst2] at hdoc
    simp only [List.mem_append, List.mem_singleton] at hdoc
    rcases hdoc with h1 | h1
    · exact Or.inl h1
    · right
      rw [h1]
      exact hstatus

/-- Witness for C7: a concrete successful save has an email, and the
collection after a concrete successful submission holds only documents
with status `new`. -/
theorem enquiry_store_invariant_witness :
    (truthy (some "bob@x.com") = true ∨ truthy (none : Option String) = true) ∧
    (∀ doc ∈ ([⟨0, "Bob", some "bob@x.com", none, none, DateVal.now 5, "new"⟩] :
        List StoredEnquiry), doc ∈ ([] : List StoredEnquiry) ∨ doc.status = "new") :=
  ⟨enquiry_store_invariant.1 ⟨"Bob", some "bob@x.com", none, none, DateVal.now 0, "new"⟩
      ⟨true, []⟩ ⟨0, "Bob", some "bob@x.com", none, none, DateVal.now 0, "new"⟩
      ⟨true, [⟨0, "Bob", some "bob@x.com", none, none, DateVal.now 0, "new"⟩]⟩ (by decide),
   enquiry_store_invariant.2 ⟨some "Bob", some "bob@x.com", none, none, none⟩
      ⟨true, []⟩ 5 (fun _ => some 0) (successResponse 0 (DateVal.now 5))
      ⟨true, [⟨0, "Bob", some "bob@x.com", none, none, DateVal.now 5, "new"⟩]⟩ (by decide)⟩

/-- Trimming the empty string yields the empty character list. -/
theorem jsTrim_empty_data : (jsTrim "").data = [] := rfl

/-- C10: an empty-string email is treated exactly as an absent email —
the whole endpoint behaves identically on the two payloads, and any
document the run persists stores a null email, never the empty string;
symmetrically for an empty-string phone. -/
theorem empty_string_contact_absent (p : Payload) (st : Store) (now : Nat)
    (parseDate : DateParser) (env : String) (o : EmailOutcome) :
    (p.email = some "" →
      postContact p st now parseDate env o = postContact { p with email := none } st now parseDate env o) ∧
    (p.email = some "" → ∀ r st2, contactCore p st now parseDate = Except.ok (r, st2) →
      ∀ doc ∈ st2.docs, doc ∈ st.docs ∨ doc.email = none) ∧
    (p.phone = some "" →
      postContact p st now parseDate env o = postContact { p with phone := none } st now parseDate env o) ∧
    (p.phone = some "" → ∀ r st2, contactCore p st now parseDate = Except.ok (r, st2) →
      ∀ doc ∈ st2.docs, doc ∈ st.docs ∨ doc.phone = none) := by
  obtain ⟨n, e, ph, rq, sa⟩ := p
  refine ⟨?_, ?_, ?_, ?_⟩
  · intro he
    cases he
    simp [postContact, contactCore, handlerDoc, truthy_some_empty, truthy_none_eq,
      normOpt_some_empty, normOpt, jsTrim_empty_data]
  · intro he r st2 hok doc hdoc
    cases he
    obtain ⟨d, hd, hst2, _, _⟩ := contactCore_ok_inv hok
    rw [hst2] at hdoc
    simp only [List.mem_append, List.mem_singleton] at hdoc
    rcases hdoc with h1 | h1
    · exact Or.inl h1
    · right
      rw [h1, hd]
      simp [mkStored, applySchemaSetters, handlerDoc, normOpt_some_empty]
  · intro hp
    cases hp
    simp [postContact, contactCore, handlerDoc, truthy_some_empty, truthy_none_eq,
      normOpt_some_empty, normOpt, jsTrim_empty_data]
  · intro hp r st2 hok doc hdoc
    cases hp
    obtain ⟨d, hd, hst2, _, _⟩ := contactCore_ok_inv hok
    rw [hst2] at hdoc
    simp only [List.mem_append, List.mem_singleton] at hdoc
    rcases hdoc with h1 | h1
    · exact Or.inl h1
    · right
      rw [h1, hd]
      simp [mkStored, applySchemaSetters, handlerDoc, normOpt_some_empty]

/-- Witness for C10: a payload with an empty-string email and a valid
phone behaves exactly like the payload without the email field. -/
theorem empty_string_contact_absent_witness :
    postContact ⟨some "Bob", some "", some "12345", none, none⟩ ⟨true, []⟩ 3 (fun _ => some 0) "production"
        EmailOutcome.sent =
      postContact ⟨some "Bob", none, some "12345", none, none⟩ ⟨true, []⟩ 3 (fun _ => some 0) "production"
        EmailOutcome.sent :=
  (empty_string_contact_absent ⟨some "Bob", some "", some "12345", none, none⟩ ⟨true, []⟩ 3 (fun _ => some 0)
    "production" EmailOutcome.sent).1 rfl

/-- C6: once the handler body completed (the enquiry is persisted), the
response and the resulting store are the same whether the notification
email dispatch succeeds or fails; the response is the 201 success body,
and a dispatch failure leaves its log line. -/
theorem email_failure_not_propagated (p : Payload) (st : Store) (now : Nat)
    (parseDate : DateParser) (env : String) (m : String) (r : ApiResponse) (st2 : Store)
    (hok : contactCore p st now parseDate = Except.ok (r, st2)) :
    (postContact p st now parseDate env (EmailOutcome.failed m)).1 =
      (postContact p st now parseDate env EmailOutcome.sent).1 ∧
    (postContact p st now parseDate env (EmailOutcome.failed m)).2.1 =
      (postContact p st now parseDate env EmailOutcome.sent).2.1 ∧
    (postContact p st now parseDate env (EmailOutcome.failed m)).1.status = 201 ∧
    (postContact p st now parseDate env (EmailOutcome.failed m)).1.success = true ∧
    ("Failed to send enquiry notification email: " ++ m) ∈
      (postContact p st now parseDate env (EmailOutcome.failed m)).2.2 := by
  obtain ⟨d, _, _, _, hr⟩ := contactCore_ok_inv hok
  refine ⟨?_, ?_, ?_, ?_, ?_⟩ <;>
    simp [postContact, hok, hr, successResponse, emailStepLog]

/-- Witness for C6 at a concrete valid submission with a failing email
dispatch. -/
theorem email_failure_not_propagated_witness :
    (postContact ⟨some "Bob", some "bob@x.com", none, none, none⟩ ⟨true, []⟩ 5 (fun _ => some 0) "production"
        (EmailOutcome.failed "smtp down")).1 =
      (postContact ⟨some "Bob", some "bob@x.com", none, none, none⟩ ⟨true, []⟩ 5 (fun _ => some 0) "production"
        EmailOutcome.sent).1 ∧
    (postContact ⟨some "Bob", some "bob@x.com", none, none, none⟩ ⟨true, []⟩ 5 (fun _ => some 0) "production"
        (EmailOutcome.failed "smtp down")).2.1 =
      (postContact ⟨some "Bob", some "bob@x.com", none, none, none⟩ ⟨true, []⟩ 5 (fun _ => some 0) "production"
        EmailOutcome.sent).2.1 ∧
    (postContact ⟨some "Bob", some "bob@x.com", none, none, none⟩ ⟨true, []⟩ 5 (fun _ => some 0) "production"
        (EmailOutcome.failed "smtp down")).1.status = 201 ∧
    (postContact ⟨some "Bob", some "bob@x.com", none, none, none⟩ ⟨true, []⟩ 5 (fun _ => some 0) "production"
        (EmailOutcome.failed "smtp down")).1.success = true ∧
    ("Failed to send enquiry notification email: " ++ "smtp down") ∈
      (postContact ⟨some "Bob", some "bob@x.com", none, none, none⟩ ⟨true, []⟩ 5 (fun _ => some 0) "production"
        (EmailOutcome.failed "smtp down")).2.2 :=
  email_failure_not_propagated ⟨some "Bob", some "bob@x.com", none, none, none⟩ ⟨true, []⟩ 5 (fun _ => some 0)
    "production" "smtp down" (successResponse 0 (DateVal.now 5))
    ⟨true, [⟨0, "Bob", some "bob@x.com", none, none, DateVal.now 5, "new"⟩]⟩ (by decide)

/-- Dropping trailing whitespace is dropping-from-the-right. -/
theorem trimRight_eq_rdropWhile (l : List Char) :
    trimRight l = List.rdropWhile Char.isWhitespace l := rfl

/-- Dropping trailing whitespace leaves an initial segment. -/
theorem trimRight_isPrefixOf (l : List Char) : trimRight l <+: l := by
  rw [trimRight_eq_rdropWhile]
  exact List.rdropWhile_prefix _ _

/-- Trimming only removes characters. -/
theorem jsTrimList_subset (l : List Char) : jsTrimList l ⊆ l :=
  fun _ hc =>
    (List.dropWhile_suffix Char.isWhitespace).subset
      ((trimRight_isPrefixOf _).subset hc)

/-- Trimming does not lengthen a list. -/
theorem jsTrimList_length_le (l : List Char) :
    (jsTrimList l).length ≤ l.length :=
  Nat.le_trans (trimRight_isPrefixOf _).length_le
    (List.dropWhile_suffix Char.isWhitespace).length_le

/-- A trimmed list starts with a non-whitespace character, so a second
leading-whitespace pass leaves it unchanged. -/
theorem dropWhile_ws_jsTrimList (l : List Char) :
    (jsTrimList l).dropWhile Char.isWhitespace = jsTrimList l := by
  unfold jsTrimList
  set X := l.dropWhile Char.isWhitespace with hX
  have hXfix : X.dropWhile Char.isWhitespace = X := List.dropWhile_idempotent _ _
  obtain ⟨t, ht⟩ := trimRight_isPrefixOf X
  rcases hTR : trimRight X with _ | ⟨c, u⟩
  · rfl
  · have hc : c.isWhitespace = false := by
      by_contra hcc
      rw [Bool.not_eq_false] at hcc
      rw [hTR] at ht
      have hXc : X = c :: (u ++ t) := by rw [← ht]; simp
      have hfix2 := hXfix
      rw [hXc, List.dropWhile_cons, if_pos hcc] at hfix2
      have hlen := congrArg List.length hfix2
      have hle := (List.dropWhile_suffix (l := u ++ t) Char.isWhitespace).length_le
      simp only [List.length_cons, List.length_append] at hlen hle
      omega
    rw [List.dropWhile_cons]
    simp [hc]

/-- Trimming is idempotent. -/
theorem jsTrimList_idem (l : List Char) :
    jsTrimList (jsTrimList l) = jsTrimList l := by
  show trimRight ((jsTrimList l).dropWhile Char.isWhitespace) = jsTrimList l
  rw [dropWhile_ws_jsTrimList]
  unfold jsTrimList
  rw [trimRight_eq_rdropWhile, trimRight_eq_rdropWhile]
  exact List.rdropWhile_idempotent _ _

/-- Trimming on strings is idempotent. -/
theorem jsTrim_idem (s : String) : jsTrim (jsTrim s) = jsTrim s := by
  unfold jsTrim
  rw [jsTrimList_idem]

/-- A list with no whitespace at all is already trimmed. -/
theorem jsTrimList_eq_self {l : List Char}
    (h : ∀ c ∈ l, c.isWhitespace = false) : jsTrimList l = l := by
  unfold jsTrimList
  have h1 : l.dropWhile Char.isWhitespace = l := by
    rw [List.dropWhile_eq_self_iff]
    intro hl
    rw [h _ (l.get_mem 0 hl)]
    exact Bool.false_ne_true
  rw [h1, trimRight_eq_rdropWhile, List.rdropWhile_eq_self_iff]
  intro hl
  rw [h _ (List.getLast_mem hl)]
  exact Bool.false_ne_true

/-- An email-class character is not whitespace. -/
theorem not_ws_of_isEmailChar {c : Char} (h : isEmailChar c = true) :
    c.isWhitespace = false := by
  simp only [isEmailChar, Bool.and_eq_true, Bool.not_eq_true'] at h
  exact h.1

/-- A digit is not whitespace. -/
theorem not_ws_of_isDigit {c : Char} (h : c.isDigit = true) :
    c.isWhitespace = false := by
  by_contra hw
  rw [Bool.not_eq_false] at hw
  simp only [Char.isWhitespace, Bool.or_eq_true, decide_eq_true_eq] at hw
  rcases hw with ((h1 | h1) | h1) | h1 <;> subst h1 <;> exact absurd h (by decide)

/-- Dropping trailing whitespace commutes with a non-whitespace head. -/
theorem trimRight_cons_of_not_ws {a : Char} (ha : a.isWhitespace = false)
    (l : List Char) : trimRight (a :: l) = a :: trimRight l := by
  unfold trimRight
  rw [List.reverse_cons, List.dropWhile_append]
  split
  next hnil =>
    rw [List.isEmpty_iff] at hnil
    rw [hnil, List.reverse_nil, List.dropWhile_cons]
    simp [ha]
  next hnil =>
    rw [List.reverse_append, List.reverse_cons, List.reverse_nil, List.nil_append]
    rfl

/-- Trimming a list with a non-whitespace head drops only trailing
whitespace. -/
theorem jsTrimList_cons_of_not_ws {a : Char} (ha : a.isWhitespace = false)
    (l : List Char) : jsTrimList (a :: l) = a :: trimRight l := by
  unfold jsTrimList
  rw [List.dropWhile_cons]
  simp only [ha, if_false, Bool.false_eq_true]
  exact trimRight_cons_of_not_ws ha l

/-- Stripping the plus of a list that does not start with one. -/
theorem stripPlus_cons_of_ne {c : Char} (hc : c ≠ '+') (l : List Char) :
    stripPlus (c :: l) = c :: l := by
  unfold stripPlus
  split
  next heq =>
    injection heq with h1 _
    exact absurd h1 hc
  next => rfl

/-- The phone body survives dropping trailing whitespace: the leading
digit is kept and the tail only shrinks. -/
theorem phoneBody_trimRight {c : Char} {rest : List Char}
    (h : phoneBody (c :: rest) = true) :
    phoneBody (c :: trimRight rest) = true := by
  simp only [phoneBody, Bool.and_eq_true, decide_eq_true_eq] at h ⊢
  obtain ⟨⟨hdig, hlen⟩, hall⟩ := h
  refine ⟨⟨hdig, ?_⟩, ?_⟩
  · exact Nat.le_trans (trimRight_isPrefixOf rest).length_le hlen
  · rw [List.all_eq_true] at hall ⊢
    exact fun x hx => hall x ((trimRight_isPrefixOf rest).subset hx)

/-- A string passing the phone test still passes it after trimming, and
trims to a nonempty string. -/
theorem phoneRegexTest_trim {s : String}
    (h : phoneRegexTest s = true) :
    phoneRegexTest (jsTrim s) = true ∧ (jsTrim s).data ≠ [] := by
  unfold phoneRegexTest at h ⊢
  have hdata : (jsTrim s).data = jsTrimList s.data := rfl
  rcases hd : s.data with _ | ⟨c, cs⟩
  · rw [hd] at h
    exact absurd h (by decide)
  · rw [hd] at h
    by_cases hc : c = '+'
    · subst hc
      rw [show stripPlus ('+' :: cs) = cs from rfl] at h
      rcases cs with _ | ⟨c2, rest⟩
      · exact absurd h (by decide)
      · have hdig : c2.isDigit = true := by
          simp only [phoneBody, Bool.and_eq_true] at h
          exact h.1.1.1
        have hw2 : c2.isWhitespace = false := not_ws_of_isDigit hdig
        have htrim : jsTrimList ('+' :: c2 :: rest) =
            '+' :: c2 :: trimRight rest := by
          rw [jsTrimList_cons_of_not_ws (by decide),
            trimRight_cons_of_not_ws hw2]
        rw [hdata, hd, htrim]
        constructor
        · rw [show stripPlus ('+' :: c2 :: trimRight rest) = c2 :: trimRight rest from rfl]
          exact phoneBody_trimRight h
        · simp
    · rw [stripPlus_cons_of_ne hc] at h
      have hdig : c.isDigit = true := by
        simp only [phoneBody, Bool.and_eq_true] at h
        exact h.1.1.1
      have hwc : c.isWhitespace = false := not_ws_of_isDigit hdig
      have htrim : jsTrimList (c :: cs) = c :: trimRight cs :=
        jsTrimList_cons_of_not_ws hwc cs
      rw [hdata, hd, htrim]
      constructor
      · rw [stripPlus_cons_of_ne hc]
        exact phoneBody_trimRight h
      · simp

/-- Soundness of the split: the input is the two parts around the
separator. -/
theorem splitAtChar_eq {sep : Char} {l a b : List Char}
    (h : splitAtChar sep l = some (a, b)) : l = a ++ sep :: b := by
  induction l generalizing a b with
  | nil => exact Option.noConfusion h
  | cons c rest ih =>
    rw [splitAtChar] at h
    split at h
    · next hc =>
      injection h with h
      injection h with h1 h2
      subst hc
      rw [← h1, ← h2]
      rfl
    · next hc =>
      split at h
      · next a2 b2 heq =>
        injection h with h
        injection h with h1 h2
        rw [← h1, ← h2]
        rw [List.cons_append, ← ih heq]
      · exact Option.noConfusion h

/-- A string passing the email test contains no whitespace at all. -/
theorem emailRegexTest_no_ws {s : String} (h : emailRegexTest s = true) :
    ∀ c ∈ s.data, c.isWhitespace = false := by
  unfold emailRegexTest at h
  split at h
  · exact absurd h (by decide)
  · next lp dom heq =>
    simp only [Bool.and_eq_true, List.all_eq_true] at h
    obtain ⟨⟨⟨⟨_, hlall⟩, _⟩, hdall⟩, _⟩ := h
    intro c hc
    rw [splitAtChar_eq heq] at hc
    rcases List.mem_append.mp hc with hc | hc
    · exact not_ws_of_isEmailChar (hlall c hc)
    · rcases List.mem_cons.mp hc with hc | hc
      · rw [hc]; decide
      · exact not_ws_of_isEmailChar (hdall c hc)

/-- A string passing the email test is nonempty. -/
theorem emailRegexTest_ne_nil {s : String} (h : emailRegexTest s = true) :
    s.data ≠ [] := by
  unfold emailRegexTest at h
  split at h
  · exact absurd h (by decide)
  · next lp dom heq =>
    rw [splitAtChar_eq heq]
    simp

/-- A string passing the email test is unchanged by trimming. -/
theorem jsTrim_eq_self_of_email {s : String} (h : emailRegexTest s = true) :
    jsTrim s = s := by
  obtain ⟨d⟩ := s
  show String.mk (jsTrimList d) = String.mk d
  rw [jsTrimList_eq_self (emailRegexTest_no_ws h)]

/-- Case folding maps a character to the at-sign only if it is the
at-sign. -/
theorem jsCharLower_at_iff {c : Char} : jsCharLower c = '@' ↔ c = '@' := by
  constructor
  · intro h
    unfold jsCharLower at h
    split at h
    all_goals first
      | exact absurd h (by decide)
      | exact h
  · intro h
    rw [h]
    decide

/-- Case folding preserves being the dot character. -/
theorem jsCharLower_dot (c : Char) : (jsCharLower c == '.') = (c == '.') := by
  unfold jsCharLower
  split
  all_goals rfl

/-- Case folding preserves the email character class. -/
theorem isEmailChar_jsCharLower (c : Char) :
    isEmailChar (jsCharLower c) = isEmailChar c := by
  unfold jsCharLower
  split
  all_goals rfl

/-- Case folding commutes with splitting at the at-sign. -/
theorem splitAtChar_map_lower (l : List Char) :
    splitAtChar '@' (l.map jsCharLower) =
      (splitAtChar '@' l).map
        (fun ab => (ab.1.map jsCharLower, ab.2.map jsCharLower)) := by
  induction l with
  | nil => rfl
  | cons c rest ih =>
    rw [List.map_cons, splitAtChar, splitAtChar]
    by_cases hc : c = '@'
    · rw [if_pos (by rw [hc]; decide), if_pos hc]
      rfl
    · rw [if_neg (fun h => hc (jsCharLower_at_iff.mp h)), if_neg hc, ih]
      rcases splitAtChar '@' rest with _ | ⟨a, b⟩
      · rfl
      · rfl

/-- Case folding preserves the interior-dot test. -/
theorem hasDotThenMore_map_lower (l : List Char) :
    hasDotThenMore (l.map jsCharLower) = hasDotThenMore l := by
  induction l with
  | nil => rfl
  | cons c rest ih =>
    rw [List.map_cons, hasDotThenMore, hasDotThenMore, ih, jsCharLower_dot]
    rcases rest with _ | ⟨d, ds⟩
    · rfl
    · rfl

/-- A string passing the email test still passes it after case
folding. -/
theorem emailRegexTest_toLower {s : String} (h : emailRegexTest s = true) :
    emailRegexTest (jsToLower s) = true := by
  unfold emailRegexTest at h ⊢
  rw [show (jsToLower s).data = s.data.map jsCharLower from rfl,
    splitAtChar_map_lower]
  split at h
  · exact absurd h (by decide)
  · next lp dom heq =>
    rw [heq]
    simp only [Option.map_some']
    simp only [Bool.and_eq_true, List.all_eq_true] at h
    obtain ⟨⟨⟨⟨hl1, hl2⟩, hd1⟩, hd2⟩, hdot⟩ := h
    simp only [Bool.and_eq_true, List.all_eq_true]
    refine ⟨⟨⟨⟨?_, ?_⟩, ?_⟩, ?_⟩, ?_⟩
    · simpa using hl1
    · intro c hc
      rcases List.mem_map.mp hc with ⟨d, hd, rfl⟩
      rw [isEmailChar_jsCharLower]
      exact hl2 d hd
    · simpa using hd1
    · intro c hc
      rcases List.mem_map.mp hc with ⟨d, hd, rfl⟩
      rw [isEmailChar_jsCharLower]
      exact hd2 d hd
    · rw [← List.map_tail, hasDotThenMore_map_lower]
      exact hdot

/-- A present string field is truthy exactly when nonempty. -/
theorem truthy_some_iff {s : String} : truthy (some s) = true ↔ s.data ≠ [] := by
  simp [truthy, List.isEmpty_iff]

/-- A present string field is falsy exactly when empty. -/
theorem truthy_some_false_iff {s : String} :
    truthy (some s) = false ↔ s.data = [] := by
  simp [truthy, List.isEmpty_iff]

/-- Normalization keeps a valid email unchanged. -/
theorem normOpt_of_email {e : String} (h : emailRegexTest e = true) :
    normOpt (some e) = some e := by
  simp only [normOpt]
  rw [jsTrim_eq_self_of_email h,
    if_neg (by simp [List.isEmpty_iff, emailRegexTest_ne_nil h])]

/-- Normalization trims a valid phone to a nonempty string. -/
theorem normOpt_of_phone {s : String} (h : phoneRegexTest s = true) :
    normOpt (some s) = some (jsTrim s) ∧ (jsTrim s).data ≠ [] := by
  obtain ⟨h1, h2⟩ := phoneRegexTest_trim h
  exact ⟨by simp only [normOpt]; rw [if_neg (by simp [List.isEmpty_iff, h2])], h2⟩

/-- Re-trimming the result of `field?.trim() || null` changes nothing. -/
theorem normOpt_map_jsTrim (x : Option String) :
    (normOpt x).map jsTrim = normOpt x := by
  rcases x with _ | s
  · rfl
  · simp only [normOpt]
    split
    · rfl
    · simp only [Option.map_some']
      rw [jsTrim_idem]

/-- On normalized fields the email setter is just case folding. -/
theorem normOpt_map_lower_trim (x : Option String) :
    (normOpt x).map (fun s => jsToLower (jsTrim s)) =
      (normOpt x).map jsToLower := by
  rcases x with _ | s
  · rfl
  · simp only [normOpt]
    split
    · rfl
    · simp only [Option.map_some']
      rw [jsTrim_idem]

/-- The schema setters applied to the handler document, written out:
the name is trimmed once, the email is normalized then case folded, and
phone and requirement are just normalized. -/
theorem applySetters_handlerDoc (p : Payload) (now : Nat) (parseDate : DateParser) :
    applySchemaSetters (handlerDoc p now parseDate) =
      { name := jsTrim (p.name.getD "")
        email := (normOpt p.email).map jsToLower
        phone := normOpt p.phone
        requirement := normOpt p.requirement
        submittedAt := (handlerDoc p now parseDate).submittedAt
        status := "new" } := by
  unfold applySchemaSetters handlerDoc
  simp only [jsTrim_idem, normOpt_map_jsTrim, normOpt_map_lower_trim]

/-- Unpacking `validPayload` into its seven guard facts. -/
theorem validPayload_parts {p : Payload} (hv : validPayload p = true) :
    truthy p.name = true ∧
    (jsTrim (p.name.getD "")).data.isEmpty = false ∧
    (truthy p.email = true ∨ truthy p.phone = true) ∧
    (p.name.getD "").data.length ≤ 50 ∧
    (truthy p.requirement = true → (p.requirement.getD "").data.length ≤ 500) ∧
    (truthy p.email = true → emailRegexTest (p.email.getD "") = true) ∧
    (truthy p.phone = true → phoneRegexTest (p.phone.getD "") = true) := by
  simp only [validPayload, Bool.and_eq_true, Bool.or_eq_true, decide_eq_true_eq,
    Bool.not_eq_true'] at hv
  obtain ⟨⟨⟨⟨⟨⟨hn, hnb⟩, hor⟩, h50⟩, hreq⟩, hem⟩, hph⟩ := hv
  refine ⟨hn, hnb, hor, h50, ?_, ?_, ?_⟩
  · intro ht
    rcases hreq with h | h
    · rw [h] at ht
      exact absurd ht (by decide)
    · exact h
  · intro ht
    rcases hem with h | h
    · rw [h] at ht
      exact absurd ht (by decide)
    · exact h
  · intro ht
    rcases hph with h | h
    · rw [h] at ht
      exact absurd ht (by decide)
    · exact h

/-- Normalization of a present-but-empty field yields null. -/
theorem normOpt_of_empty {s : String} (h : s.data = []) :
    normOpt (some s) = none := by
  have h2 : (jsTrim s).data.isEmpty = true := by
    show (jsTrimList s.data).isEmpty = true
    rw [h]
    rfl
  simp only [normOpt]
  rw [if_pos h2]

/-- On the setter-processed handler document of a valid payload every
schema check except the submittedAt Date cast passes: the validator
output reduces to the cast block alone. -/
theorem schemaFieldErrors_eq_cast (p : Payload) (now : Nat) (parseDate : DateParser)
    (hv : validPayload p = true) :
    schemaFieldErrors (applySchemaSetters (handlerDoc p now parseDate)) =
      (if (handlerDoc p now parseDate).submittedAt = DateVal.invalid then
        [("submittedAt", "Cast to date failed")]
      else []) := by
  obtain ⟨hn, hnb, hor, h50, hreq, hem, hph⟩ := validPayload_parts hv
  rw [applySetters_handlerDoc]
  have hname2 : decide (50 < (jsTrim (p.name.getD "")).data.length) = false := by
    have h1 : (jsTrim (p.name.getD "")).data.length ≤ (p.name.getD "").data.length :=
      jsTrimList_length_le _
    simp only [decide_eq_false_iff_not, Nat.not_lt]
    omega
  have hE : (normOpt p.email).map jsToLower = none ∨
      ∃ e', (normOpt p.email).map jsToLower = some e' ∧
        (!e'.data.isEmpty && !emailRegexTest e') = false := by
    rcases hpe : p.email with _ | e
    · exact Or.inl rfl
    · by_cases hte : truthy (some e) = true
      · right
        have hreg := hem (by rw [hpe]; exact hte)
        rw [hpe, Option.getD_some] at hreg
        refine ⟨jsToLower e, ?_, ?_⟩
        · rw [normOpt_of_email hreg]
          rfl
        · rw [emailRegexTest_toLower hreg]
          simp
      · left
        rw [Bool.not_eq_true, truthy_some_false_iff] at hte
        rw [normOpt_of_empty hte]
        rfl
  have hP : normOpt p.phone = none ∨
      ∃ t, normOpt p.phone = some t ∧
        (!t.data.isEmpty && !phoneRegexTest t) = false := by
    rcases hpp : p.phone with _ | s
    · exact Or.inl rfl
    · by_cases hts : truthy (some s) = true
      · right
        have hreg := hph (by rw [hpp]; exact hts)
        rw [hpp, Option.getD_some] at hreg
        obtain ⟨h1, _⟩ := normOpt_of_phone hreg
        refine ⟨jsTrim s, h1, ?_⟩
        rw [(phoneRegexTest_trim hreg).1]
        simp
      · left
        rw [Bool.not_eq_true, truthy_some_false_iff] at hts
        exact normOpt_of_empty hts
  have hR : normOpt p.requirement = none ∨
      ∃ t, normOpt p.requirement = some t ∧
        decide (500 < t.data.length) = false := by
    rcases hpr : p.requirement with _ | s
    · exact Or.inl rfl
    · by_cases hts : truthy (some s) = true
      · have h500 := hreq (by rw [hpr]; exact hts)
        rw [hpr, Option.getD_some] at h500
        simp only [normOpt]
        split
        · exact Or.inl rfl
        · right
          refine ⟨jsTrim s, rfl, ?_⟩
          have h1 := jsTrimList_length_le s.data
          have h2 : (jsTrim s).data = jsTrimList s.data := rfl
          simp only [decide_eq_false_iff_not, Nat.not_lt, h2]
          omega
      · left
        rw [Bool.not_eq_true, truthy_some_false_iff] at hts
        exact normOpt_of_empty hts
  have hS : statusEnum.contains "new" = true := by decide
  rcases hE with hE | ⟨e', hE1, hE2⟩ <;> rcases hP with hP | ⟨t, hP1, hP2⟩ <;>
      rcases hR with hR | ⟨u, hR1, hR2⟩ <;>
    (first | rw [hE] | rw [hE1]) <;>
    (first | rw [hP] | rw [hP1]) <;>
    (first | rw [hR] | rw [hR1]) <;>
    unfold schemaFieldErrors <;>
    (first
      | simp [hnb, hname2, hS, hE2, hP2, hR2]
      | simp [hnb, hname2, hS, hE2, hP2]
      | simp [hnb, hname2, hS, hE2, hR2]
      | simp [hnb, hname2, hS, hP2, hR2]
      | simp [hnb, hname2, hS, hE2]
      | simp [hnb, hname2, hS, hP2]
      | simp [hnb, hname2, hS, hR2]
      | simp [hnb, hname2, hS]) <;>
    (first
      | (have hle : ¬ 50 < (jsTrim (p.name.getD "")).length :=
            Nat.not_lt.mpr (Nat.le_trans (jsTrimList_length_le _) h50)
         have hu : ¬ 500 < u.length := by simpa using hR2
         rw [if_neg hle, if_neg hu,
           if_pos (show ("new" : String) ∈ statusEnum from by decide)]
         simp)
      | (have hle : ¬ 50 < (jsTrim (p.name.getD "")).length :=
            Nat.not_lt.mpr (Nat.le_trans (jsTrimList_length_le _) h50)
         rw [if_neg hle,
           if_pos (show ("new" : String) ∈ statusEnum from by decide)]
         simp))

/-- A payload with a parseable (or absent, or empty) submittedAt never
builds an Invalid Date. -/
theorem submittedAt_ne_invalid {p : Payload} {now : Nat} {parseDate : DateParser}
    (h : dateOk parseDate p = true) :
    ¬ (handlerDoc p now parseDate).submittedAt = DateVal.invalid := by
  simp only [dateOk, Bool.or_eq_true, Bool.not_eq_true'] at h
  simp only [handlerDoc]
  rcases h with h | h
  · rw [h]
    simp
  · by_cases ht : truthy p.submittedAt = true
    · rw [ht]
      simp only [if_true]
      rcases ho : parseDate (p.submittedAt.getD "") with _ | t
      · rw [ho] at h
        exact absurd h (by decide)
      · simp [mkDate, ho]
    · rw [Bool.not_eq_true] at ht
      simp [ht]

/-- The schema validators all pass on the setter-processed handler
document of a valid payload whose submittedAt parses. -/
theorem schemaFieldErrors_valid (p : Payload) (now : Nat) (parseDate : DateParser)
    (hv : validPayload p = true) (hd : dateOk parseDate p = true) :
    schemaFieldErrors (applySchemaSetters (handlerDoc p now parseDate)) = [] := by
  rw [schemaFieldErrors_eq_cast p now parseDate hv,
    if_neg (submittedAt_ne_invalid hd)]

/-- On a valid payload whose non-empty submittedAt does not parse, the
schema validators report exactly the Date cast failure. -/
theorem schemaFieldErrors_invalid_date (p : Payload) (now : Nat)
    (parseDate : DateParser) (hv : validPayload p = true)
    (hts : truthy p.submittedAt = true)
    (hbad : parseDate (p.submittedAt.getD "") = none) :
    schemaFieldErrors (applySchemaSetters (handlerDoc p now parseDate)) =
      [("submittedAt", "Cast to date failed")] := by
  rw [schemaFieldErrors_eq_cast p now parseDate hv, if_pos]
  simp [handlerDoc, hts, mkDate, hbad]

/-- The pre-save hook passes on the setter-processed handler document
of a valid payload: it retains an email or a phone. -/
theorem presave_valid (p : Payload) (now : Nat) (parseDate : DateParser)
    (hv : validPayload p = true) :
    (!truthy (applySchemaSetters (handlerDoc p now parseDate)).email &&
     !truthy (applySchemaSetters (handlerDoc p now parseDate)).phone) = false := by
  obtain ⟨hn, hnb, hor, h50, hreq, hem, hph⟩ := validPayload_parts hv
  rw [applySetters_handlerDoc]
  rcases hor with hte | htp
  · rcases hpe : p.email with _ | e
    · rw [hpe] at hte
      exact absurd hte (by decide)
    · rw [hpe] at hte
      have hreg := hem (by rw [hpe]; exact hte)
      rw [hpe, Option.getD_some] at hreg
      rw [normOpt_of_email hreg]
      have hne : (jsToLower e).data ≠ [] := by
        have := emailRegexTest_ne_nil hreg
        show (e.data.map jsCharLower) ≠ []
        simp [this]
      have : truthy (some (jsToLower e)) = true := truthy_some_iff.mpr hne
      simp [this]
  · rcases hpp : p.phone with _ | s
    · rw [hpp] at htp
      exact absurd htp (by decide)
    · rw [hpp] at htp
      have hreg := hph (by rw [hpp]; exact htp)
      rw [hpp, Option.getD_some] at hreg
      obtain ⟨h1, h2⟩ := normOpt_of_phone hreg
      rw [h1]
      have : truthy (some (jsTrim s)) = true := truthy_some_iff.mpr h2
      simp [this]

/-- A valid payload's handler document with a parseable submittedAt
saves successfully, appending exactly the setter-processed document
under a fresh id. -/
theorem saveEnquiry_valid (p : Payload) (st : Store) (now : Nat)
    (parseDate : DateParser) (hv : validPayload p = true)
    (hd : dateOk parseDate p = true) :
    saveEnquiry (handlerDoc p now parseDate) st =
      Except.ok (mkStored (applySchemaSetters (handlerDoc p now parseDate)) st.docs.length,
        { st with docs := st.docs ++
            [mkStored (applySchemaSetters (handlerDoc p now parseDate)) st.docs.length] }) := by
  simp only [saveEnquiry]
  rw [schemaFieldErrors_valid p now parseDate hv hd, presave_valid p now parseDate hv]
  simp

/-- The handler accepts every valid payload against a connected store:
it returns the 201 success response for a fresh id and appends the
setter-processed handler document. -/
theorem contactCore_valid (p : Payload) (st : Store) (now : Nat)
    (parseDate : DateParser) (hv : validPayload p = true)
    (hd : dateOk parseDate p = true) (hc : st.connected = true) :
    contactCore p st now parseDate =
      Except.ok (successResponse st.docs.length (handlerDoc p now parseDate).submittedAt,
        { st with docs := st.docs ++
            [mkStored (applySchemaSetters (handlerDoc p now parseDate)) st.docs.length] }) := by
  obtain ⟨hn, hnb, hor, h50, hreq, hem, hph⟩ := validPayload_parts hv
  have c1 : (!truthy p.name || (jsTrim (p.name.getD "")).data.isEmpty) = false := by
    simp [hn, hnb]
  have c2 : (!truthy p.email && !truthy p.phone) = false := by
    rcases hor with h | h <;> simp [h]
  have c3 : decide (50 < (p.name.getD "").data.length) = false := by
    simp only [decide_eq_false_iff_not, Nat.not_lt]
    exact h50
  have c4 : (truthy p.requirement &&
      decide (500 < (p.requirement.getD "").data.length)) = false := by
    by_cases ht : truthy p.requirement = true
    · have h5 := hreq ht
      rw [ht]
      simp only [Bool.true_and, decide_eq_false_iff_not, Nat.not_lt]
      exact h5
    · rw [Bool.not_eq_true] at ht
      simp [ht]
  have c5 : (truthy p.email && !emailRegexTest (p.email.getD "")) = false := by
    by_cases ht : truthy p.email = true
    · simp [ht, hem ht]
    · rw [Bool.not_eq_true] at ht
      simp [ht]
  have c6 : (truthy p.phone && !phoneRegexTest (p.phone.getD "")) = false := by
    by_cases ht : truthy p.phone = true
    · simp [ht, hph ht]
    · rw [Bool.not_eq_true] at ht
      simp [ht]
  simp only [contactCore, c1, c2, c3, c4, c5, c6, hc, Bool.not_true,
    Bool.false_eq_true, if_false]
  rw [saveEnquiry_valid p st now parseDate hv hd]
  simp [mkStored, applySchemaSetters, hc]

/-- The Date-cast error path: a payload passing the handler's guards
whose non-empty submittedAt the runtime parser rejects is turned away
by the save — the cast failure surfaces as a 400 validation response
naming submittedAt, and nothing is persisted. -/
theorem contact_invalid_date_rejected (p : Payload) (st : Store) (now : Nat)
    (parseDate : DateParser) (env : String) (o : EmailOutcome)
    (hv : validPayload p = true) (hc : st.connected = true)
    (hts : truthy p.submittedAt = true)
    (hbad : parseDate (p.submittedAt.getD "") = none) :
    (postContact p st now parseDate env o).1.status = 400 ∧
    ((postContact p st now parseDate env o).1.errors.getD []).lookup "submittedAt" =
      some "Cast to date failed" ∧
    (postContact p st now parseDate env o).2.1 = st := by
  obtain ⟨hn, hnb, hor, h50, hreq, hem, hph⟩ := validPayload_parts hv
  have hsave : saveEnquiry (handlerDoc p now parseDate) st =
      Except.error
        { name := "ValidationError", message := "Enquiry validation failed",
          code := none, errors := [("submittedAt", "Cast to date failed")],
          path := none } := by
    simp only [saveEnquiry]
    rw [schemaFieldErrors_invalid_date p now parseDate hv hts hbad]
    simp
  have c1 : (!truthy p.name || (jsTrim (p.name.getD "")).data.isEmpty) = false := by
    simp [hn, hnb]
  have c2 : (!truthy p.email && !truthy p.phone) = false := by
    rcases hor with h | h <;> simp [h]
  have c3 : decide (50 < (p.name.getD "").data.length) = false := by
    simp only [decide_eq_false_iff_not, Nat.not_lt]
    exact h50
  have c4 : (truthy p.requirement &&
      decide (500 < (p.requirement.getD "").data.length)) = false := by
    by_cases ht : truthy p.requirement = true
    · have h5 := hreq ht
      rw [ht]
      simp only [Bool.true_and, decide_eq_false_iff_not, Nat.not_lt]
      exact h5
    · rw [Bool.not_eq_true] at ht
      simp [ht]
  have c5 : (truthy p.email && !emailRegexTest (p.email.getD "")) = false := by
    by_cases ht : truthy p.email = true
    · simp [ht, hem ht]
    · rw [Bool.not_eq_true] at ht
      simp [ht]
  have c6 : (truthy p.phone && !phoneRegexTest (p.phone.getD "")) = false := by
    by_cases ht : truthy p.phone = true
    · simp [ht, hph ht]
    · rw [Bool.not_eq_true] at ht
      simp [ht]
  have hcore : contactCore p st now parseDate =
      Except.error
        { name := "ValidationError", message := "Enquiry validation failed",
          code := none, errors := [("submittedAt", "Cast to date failed")],
          path := none } := by
    simp only [contactCore, c1, c2, c3, c4, c5, c6, hc, Bool.not_true,
      Bool.false_eq_true, if_false]
    rw [hsave]
  refine ⟨?_, ?_, ?_⟩ <;> simp [postContact, hcore, handleError]

/-- C2 counterexample: for the valid payload with name `Bob`, email
`Jane@Example.com` and an empty-string submittedAt, the persisted email
is the lowercased `jane@example.com`, not the trimmed input, and the
persisted submittedAt is the current time although a submittedAt field
was present; moreover a payload whose non-empty submittedAt the runtime
parser rejects is not persisted at all: the schema's Date cast fails
the save and the response is 400. -/
theorem contact_success_cex :
    (postContact ⟨some "Bob", some "Jane@Example.com", none, none, some ""⟩ ⟨true, []⟩ 5
        (fun _ => some 0) "production" EmailOutcome.sent).2.1.docs =
      [⟨0, "Bob", some "jane@example.com", none, none, DateVal.now 5, "new"⟩] ∧
    jsTrim "Jane@Example.com" ≠ "jane@example.com" ∧
    DateVal.now 5 ≠ DateVal.parsed 0 ∧
    (postContact ⟨some "Bob", some "bob@x.com", none, none, some "zzz"⟩ ⟨true, []⟩ 5
        (fun _ => none) "production" EmailOutcome.sent).1.status = 400 ∧
    (postContact ⟨some "Bob", some "bob@x.com", none, none, some "zzz"⟩ ⟨true, []⟩ 5
        (fun _ => none) "production" EmailOutcome.sent).2.1.docs = [] := by
  decide

/-- C2 amended: for every payload that passes all validation checks —
the handler's guards and, when a non-empty submittedAt is supplied, the
schema's Date cast (the timestamp parses) — against a connected store,
the handler persists exactly one new Enquiry whose name, phone and
requirement are the trimmed inputs (null when absent or blank), whose
email is the trimmed input additionally lowercased, whose submittedAt
is the parse of the supplied timestamp when a nonempty one is given and
the current time otherwise, and whose status is `new`; the response is
201 with success, the generated enquiryId and the stored submittedAt. -/
theorem contact_success (p : Payload) (st : Store) (now : Nat)
    (parseDate : DateParser) (env : String) (o : EmailOutcome)
    (hv : validPayload p = true) (hd : dateOk parseDate p = true)
    (hc : st.connected = true) :
    ∃ d : StoredEnquiry,
      (postContact p st now parseDate env o).2.1.docs = st.docs ++ [d] ∧
      d.id = st.docs.length ∧
      d.name = jsTrim (p.name.getD "") ∧
      d.email = (normOpt p.email).map jsToLower ∧
      d.phone = normOpt p.phone ∧
      d.requirement = normOpt p.requirement ∧
      d.submittedAt = (if truthy p.submittedAt then
        mkDate parseDate (p.submittedAt.getD "") else DateVal.now now) ∧
      d.status = "new" ∧
      (postContact p st now parseDate env o).1 = successResponse d.id d.submittedAt := by
  have hcore := contactCore_valid p st now parseDate hv hd hc
  have hpost : postContact p st now parseDate env o =
      (successResponse st.docs.length (handlerDoc p now parseDate).submittedAt,
        { st with docs := st.docs ++
            [mkStored (applySchemaSetters (handlerDoc p now parseDate)) st.docs.length] },
        emailStepLog o) := by
    simp [postContact, hcore]
  refine ⟨mkStored (applySchemaSetters (handlerDoc p now parseDate)) st.docs.length,
    ?_, rfl, ?_, ?_, ?_, ?_, ?_, ?_, ?_⟩
  · rw [hpost]
  · rw [applySetters_handlerDoc]
    rfl
  · rw [applySetters_handlerDoc]
    rfl
  · rw [applySetters_handlerDoc]
    rfl
  · rw [applySetters_handlerDoc]
    rfl
  · rfl
  · rfl
  · rw [hpost]
    rfl

/-- Witness for C2 amended at a concrete valid payload. -/
theorem contact_success_witness :
    ∃ d : StoredEnquiry,
      (postContact ⟨some "Bob", some "bob@x.com", none, none, none⟩ ⟨true, []⟩ 5
          (fun _ => some 0) "production" EmailOutcome.sent).2.1.docs = [] ++ [d] ∧
      d.id = 0 ∧
      d.name = jsTrim "Bob" ∧
      d.email = (normOpt (some "bob@x.com")).map jsToLower ∧
      d.phone = normOpt none ∧
      d.requirement = normOpt none ∧
      d.submittedAt = (if truthy none then
        mkDate (fun _ => some 0) (Option.getD none "") else DateVal.now 5) ∧
      d.status = "new" ∧
      (postContact ⟨some "Bob", some "bob@x.com", none, none, none⟩ ⟨true, []⟩ 5
          (fun _ => some 0) "production" EmailOutcome.sent).1 =
        successResponse d.id d.submittedAt :=
  contact_success ⟨some "Bob", some "bob@x.com", none, none, none⟩ ⟨true, []⟩ 5
    (fun _ => some 0) "production" EmailOutcome.sent (by decide) (by decide) rfl

/-- C3 counterexample: a 51-character name with no contact fields is a
submission whose name exceeds 50 characters, yet the handler's reply
carries the either-email-or-phone error, not the name-length error —
the contact check fires first; and a payload meeting every handler
guard whose non-empty submittedAt fails the date parse is rejected 400
by the save, not accepted. -/
theorem name_length_cex :
    50 < (String.mk (List.replicate 51 'a')).data.length ∧
    (postContact ⟨some (String.mk (List.replicate 51 'a')), none, none, none, none⟩
        ⟨true, []⟩ 0 (fun _ => some 0) "production" EmailOutcome.sent).1.errors =
      some [("email", "Either email or phone number must be provided"),
            ("phone", "Either email or phone number must be provided")] ∧
    (postContact ⟨some (String.mk (List.replicate 51 'a')), none, none, none, none⟩
        ⟨true, []⟩ 0 (fun _ => some 0) "production" EmailOutcome.sent).1.errors ≠
      some [("name", "Name cannot exceed 50 characters")] ∧
    (postContact ⟨some "Bob", some "bob@x.com", none, none, some "zzz"⟩ ⟨true, []⟩ 0
        (fun _ => none) "production" EmailOutcome.sent).1.status = 400 := by
  decide

/-- C3 amended: a submission with a non-blank name longer than 50
characters and at least one contact field present is rejected 400 with
the name-length error; and every payload passing all validation checks
— the handler's guards and, when a non-empty submittedAt is supplied,
the schema's Date cast — is accepted with 201 when the store is
connected. -/
theorem name_length_validation :
    (∀ (p : Payload) (st : Store) (now : Nat) (parseDate : DateParser)
        (env : String) (o : EmailOutcome),
        truthy p.name = true →
        (jsTrim (p.name.getD "")).data.isEmpty = false →
        (truthy p.email = true ∨ truthy p.phone = true) →
        50 < (p.name.getD "").data.length →
        (postContact p st now parseDate env o).1.status = 400 ∧
        (postContact p st now parseDate env o).1.errors =
          some [("name", "Name cannot exceed 50 characters")]) ∧
    (∀ (p : Payload) (st : Store) (now : Nat) (parseDate : DateParser)
        (env : String) (o : EmailOutcome),
        validPayload p = true → dateOk parseDate p = true → st.connected = true →
        (postContact p st now parseDate env o).1.status = 201 ∧
        (postContact p st now parseDate env o).1.success = true) := by
  constructor
  · intro p st now parseDate env o hn hnb hor h51
    have c1 : (!truthy p.name || (jsTrim (p.name.getD "")).data.isEmpty) = false := by
      simp [hn, hnb]
    have c2 : (!truthy p.email && !truthy p.phone) = false := by
      rcases hor with h | h <;> simp [h]
    have hcore : contactCore p st now parseDate =
        Except.error (createValidationError "name" "Name cannot exceed 50 characters") := by
      simp only [contactCore, c1, c2, Bool.false_eq_true, if_false,
        createValidationError]
      rw [if_pos]
      exact decide_eq_true h51
    constructor <;> simp [postContact, hcore, handleError, createValidationError]
  · intro p st now parseDate env o hv hd hc
    have hcore := contactCore_valid p st now parseDate hv hd hc
    constructor <;> simp [postContact, hcore, successResponse]

/-- Witness for C3 amended: an over-long name with a phone is rejected
with the name-length error, and a valid payload is accepted. -/
theorem name_length_validation_witness :
    ((postContact ⟨some (String.mk (List.replicate 51 'a')), none, some "12345", none, none⟩
        ⟨true, []⟩ 0 (fun _ => some 0) "production" EmailOutcome.sent).1.status = 400 ∧
     (postContact ⟨some (String.mk (List.replicate 51 'a')), none, some "12345", none, none⟩
        ⟨true, []⟩ 0 (fun _ => some 0) "production" EmailOutcome.sent).1.errors =
       some [("name", "Name cannot exceed 50 characters")]) ∧
    ((postContact ⟨some "Bob", some "bob@x.com", none, none, none⟩ ⟨true, []⟩ 5 (fun _ => some 0)
        "production" EmailOutcome.sent).1.status = 201 ∧
     (postContact ⟨some "Bob", some "bob@x.com", none, none, none⟩ ⟨true, []⟩ 5 (fun _ => some 0)
        "production" EmailOutcome.sent).1.success = true) :=
  ⟨name_length_validation.1 ⟨some (String.mk (List.replicate 51 'a')), none,
      some "12345", none, none⟩ ⟨true, []⟩ 0 (fun _ => some 0) "production" EmailOutcome.sent
      (by decide) (by decide) (by decide) (by decide),
   name_length_validation.2 ⟨some "Bob", some "bob@x.com", none, none, none⟩
      ⟨true, []⟩ 5 (fun _ => some 0) "production" EmailOutcome.sent (by decide)
      (by decide) rfl⟩

/-- Searching a collection extended with a fresh-id document finds that
document. -/
theorem find_fresh {docs : List StoredEnquiry} {n : Nat}
    (h : ∀ x ∈ docs, x.id ≠ n) (d : StoredEnquiry) (hd : d.id = n) :
    List.find? (fun x => x.id == n) (docs ++ [d]) = some d := by
  induction docs with
  | nil =>
    simp only [List.nil_append]
    rw [List.find?_cons_of_pos]
    simp [hd]
  | cons a as ih =>
    rw [List.cons_append, List.find?_cons_of_neg]
    · exact ih (fun x hx => h x (List.mem_cons_of_mem a hx))
    · simp [h a (List.mem_cons_self a as)]

/-- In a well-formed store every document id is below the collection
size, hence differs from the fresh id. -/
theorem wfStore_ids {st : Store} (h : wfStore st = true) :
    ∀ x ∈ st.docs, x.id ≠ st.docs.length := by
  intro x hx
  simp only [wfStore, beq_iff_eq] at h
  have hmem : x.id ∈ st.docs.map (fun d => d.id) := List.mem_map_of_mem _ hx
  rw [h, List.mem_range] at hmem
  omega

/-- C5 counterexample: the valid submission with name ` Jane ` (padded
with spaces) is persisted and retrieved with name `Jane`: the
round-trip does not return the submitted name verbatim, only its
trimmed form; and a valid submission whose non-empty submittedAt fails
the date parse is not persisted at all, so nothing can be retrieved. -/
theorem contact_roundtrip_cex :
    (postContact ⟨some " Jane ", some "jane@x.com", none, none, none⟩ ⟨true, []⟩ 7 (fun _ => some 0)
        "production" EmailOutcome.sent).1.enquiryId = some 0 ∧
    findEnquiry (postContact ⟨some " Jane ", some "jane@x.com", none, none, none⟩
        ⟨true, []⟩ 7 (fun _ => some 0) "production" EmailOutcome.sent).2.1 0 =
      some ⟨0, "Jane", some "jane@x.com", none, none, DateVal.now 7, "new"⟩ ∧
    ("Jane" : String) ≠ " Jane " ∧
    (postContact ⟨some "Bob", some "bob@x.com", none, none, some "zzz"⟩ ⟨true, []⟩ 7
        (fun _ => none) "production" EmailOutcome.sent).1.enquiryId = none ∧
    (postContact ⟨some "Bob", some "bob@x.com", none, none, some "zzz"⟩ ⟨true, []⟩ 7
        (fun _ => none) "production" EmailOutcome.sent).2.1.docs = [] := by
  decide

/-- C5 amended: persisting a valid submission — the handler's guards
pass and a non-empty supplied submittedAt parses — into a connected
well-formed store and retrieving it under the returned enquiryId yields
a record whose name, phone and requirement are the trimmed submitted
values, whose email is the trimmed submitted email lowercased, and
whose status is `new`. -/
theorem contact_roundtrip (p : Payload) (st : Store) (now : Nat)
    (parseDate : DateParser) (env : String) (o : EmailOutcome)
    (hv : validPayload p = true) (hd : dateOk parseDate p = true)
    (hc : st.connected = true) (hwf : wfStore st = true) :
    ∃ id d, (postContact p st now parseDate env o).1.enquiryId = some id ∧
      findEnquiry (postContact p st now parseDate env o).2.1 id = some d ∧
      d.name = jsTrim (p.name.getD "") ∧
      d.email = (normOpt p.email).map jsToLower ∧
      d.phone = normOpt p.phone ∧
      d.requirement = normOpt p.requirement ∧
      d.status = "new" := by
  have hcore := contactCore_valid p st now parseDate hv hd hc
  have hpost : postContact p st now parseDate env o =
      (successResponse st.docs.length (handlerDoc p now parseDate).submittedAt,
        { st with docs := st.docs ++
            [mkStored (applySchemaSetters (handlerDoc p now parseDate)) st.docs.length] },
        emailStepLog o) := by
    simp [postContact, hcore]
  refine ⟨st.docs.length,
    mkStored (applySchemaSetters (handlerDoc p now parseDate)) st.docs.length,
    ?_, ?_, ?_, ?_, ?_, ?_, ?_⟩
  · rw [hpost]
    rfl
  · rw [hpost]
    show List.find? _ (st.docs ++ [_]) = _
    exact find_fresh (wfStore_ids hwf) _ rfl
  · rw [applySetters_handlerDoc]
    rfl
  · rw [applySetters_handlerDoc]
    rfl
  · rw [applySetters_handlerDoc]
    rfl
  · rw [applySetters_handlerDoc]
    rfl
  · rfl

/-- Witness for C5 amended at a concrete valid payload and the empty
store. -/
theorem contact_roundtrip_witness :
    ∃ id d, (postContact ⟨some "Bob", some "bob@x.com", none, none, none⟩ ⟨true, []⟩ 5 (fun _ => some 0)
        "production" EmailOutcome.sent).1.enquiryId = some id ∧
      findEnquiry (postContact ⟨some "Bob", some "bob@x.com", none, none, none⟩
          ⟨true, []⟩ 5 (fun _ => some 0) "production" EmailOutcome.sent).2.1 id = some d ∧
      d.name = jsTrim "Bob" ∧
      d.email = (normOpt (some "bob@x.com")).map jsToLower ∧
      d.phone = normOpt none ∧
      d.requirement = normOpt none ∧
      d.status = "new" :=
  contact_roundtrip ⟨some "Bob", some "bob@x.com", none, none, none⟩ ⟨true, []⟩ 5 (fun _ => some 0)
    "production" EmailOutcome.sent (by decide) (by decide) rfl (by decide)
